/-
Verification of the matching/ranking core of the AI-Resume-Screener repository.

Shallow embedding conventions:
  * Python strings are Lean `String` / `List Char` (ASCII-faithful; the model
    restricts Python's unicode-aware `\w`, `\s`, `str.lower`, `str.strip` to
    their ASCII behaviour, which is what every skill string in the repository
    exercises).
  * Python floats are modelled as `Rat`.  Division by zero is 0 in `Rat`.
  * Python `set`s are modelled as first-occurrence-deduplicated lists; only
    cardinalities and membership of these sets are relied upon by the theorems.
  * Python's stable `list.sort(key=k, reverse=True)` is modelled with
    `List.insertionSort` (any two stable sorts agree extensionally).
  * The sklearn TF-IDF vectorizer and the compiled `re` pattern engine are
    external libraries, not repository code; they enter the model as explicit
    function parameters (`simFn`, `findMatches`).  All theorems quantify over
    them, so nothing proved depends on their concrete behaviour.
-/
import Mathlib

namespace ResumeScreener

/-! ## Character-level utilities (src/src/utils/skill_dictionary.py) -/

/-- Python `\s` (ASCII fragment): the whitespace characters recognised by
`str.strip()` and the regex class. -/
def isPySpace (c : Char) : Bool :=
  c = ' ' || c = '\t' || c = '\n' || c = '\r' || c = '\x0b' || c = '\x0c'

/-- Python `\w` (ASCII fragment): letters, digits and the underscore. -/
def isWordChar (c : Char) : Bool :=
  ('a' ≤ c && c ≤ 'z') || ('A' ≤ c && c ≤ 'Z') || ('0' ≤ c && c ≤ '9') || c = '_'

/-- The character class kept by `re.sub(r'[^\w\s\-\.\#\+]', '', skill)` in
`SkillDictionary.normalize`. -/
def allowedChar (c : Char) : Bool :=
  isWordChar c || isPySpace c || c = '-' || c = '.' || c = '#' || c = '+'

/-- Python `str.strip()`: drop leading and trailing whitespace. -/
def trimChars (l : List Char) : List Char :=
  ((l.dropWhile isPySpace).reverse.dropWhile isPySpace).reverse

/-- Uppercase→lowercase table for `str.lower()` (ASCII fragment). -/
def lowerPairs : List (Char × Char) :=
  [('A','a'), ('B','b'), ('C','c'), ('D','d'), ('E','e'), ('F','f'), ('G','g'),
   ('H','h'), ('I','i'), ('J','j'), ('K','k'), ('L','l'), ('M','m'), ('N','n'),
   ('O','o'), ('P','p'), ('Q','q'), ('R','r'), ('S','s'), ('T','t'), ('U','u'),
   ('V','v'), ('W','w'), ('X','x'), ('Y','y'), ('Z','z')]

/-- Association-list lookup with decidable equality (Python `dict` lookup). -/
def lookupA {α β : Type} [DecidableEq α] (k : α) : List (α × β) → Option β
  | [] => none
  | p :: t => if p.1 = k then some p.2 else lookupA k t

/-- Python `str.lower()` on one character. -/
def toLowerChar (c : Char) : Char :=
  match lookupA c lowerPairs with
  | some v => v
  | none => c

/-- The cleaning step `skill.strip().lower()` followed by `re.sub(r'[^\w\s\-\.\#\+]', '', ·)` —
the cleaning performed at the top of `SkillDictionary.normalize`. -/
def cleanChars (l : List Char) : List Char :=
  ((trimChars l).map toLowerChar).filter allowedChar

/-- Dot removal, `skill.replace(".", "")`. -/
def stripDots (l : List Char) : List Char := l.filter (fun c => c ≠ '.')

/-! ## The skill dictionary (src/src/utils/skill_dictionary.py) -/

/-- The table `SkillDictionary.SKILL_SYNONYMS`, in source order. -/
def SKILL_SYNONYMS : List (String × String) :=
  [("js", "javascript"), ("ts", "typescript"), ("py", "python"),
   ("c#", "csharp"), ("c sharp", "csharp"), ("golang", "go"),
   ("node", "nodejs"), ("node.js", "nodejs"),
   ("react.js", "react"), ("reactjs", "react"), ("vue.js", "vue"),
   ("vuejs", "vue"), ("angular.js", "angular"), ("angularjs", "angular"),
   ("next.js", "nextjs"), ("nuxt.js", "nuxtjs"), ("express.js", "express"),
   ("expressjs", "express"), ("spring boot", "springboot"),
   ("spring-boot", "springboot"), ("fast api", "fastapi"),
   ("fast-api", "fastapi"), ("ruby on rails", "rails"), ("ror", "rails"),
   (".net", "dotnet"), ("asp.net", "aspnet"),
   ("postgres", "postgresql"), ("mongo", "mongodb"), ("ms sql", "mssql"),
   ("sql server", "mssql"), ("microsoft sql server", "mssql"),
   ("mysql", "mysql"), ("maria db", "mariadb"),
   ("amazon web services", "aws"), ("google cloud", "gcp"),
   ("google cloud platform", "gcp"), ("azure cloud", "azure"),
   ("microsoft azure", "azure"), ("k8s", "kubernetes"), ("kube", "kubernetes"),
   ("ci/cd", "cicd"), ("ci cd", "cicd"),
   ("machine learning", "ml"), ("deep learning", "dl"),
   ("artificial intelligence", "ai"), ("nlp", "natural language processing"),
   ("tensorflow", "tf"), ("scikit-learn", "sklearn"), ("scikit learn", "sklearn"),
   ("rest api", "restapi"), ("rest-api", "restapi"), ("restful", "restapi"),
   ("git hub", "github"), ("git lab", "gitlab"), ("vs code", "vscode"),
   ("visual studio code", "vscode")]

/-- The synonym table with keys and values as character lists. -/
def synPairs : List (List Char × List Char) :=
  SKILL_SYNONYMS.map (fun p => (p.1.data, p.2.data))

/-- Embeds `SkillDictionary.normalize` on character lists: clean, look up the cleaned
string in the synonym table, retry with dots stripped, otherwise return the
cleaned string unchanged. -/
def normalizeChars (s : List Char) : List Char :=
  let skill := cleanChars s
  match lookupA skill synPairs with
  | some v => v
  | none =>
    match lookupA (stripDots skill) synPairs with
    | some v => v
    | none => skill

/-- Embeds `SkillDictionary.normalize` on `String`. -/
def normalizeSkill (s : String) : String := ⟨normalizeChars s.data⟩

/-! ## Python collection idioms -/

/-- A Python `set` built by insertion, as a list of its elements in first-seen
order (set iteration order is unspecified in Python; nothing below depends on
the order chosen here, only on membership and cardinality). -/
def dedupFirst {α : Type} [DecidableEq α] : List α → List α
  | [] => []
  | a :: t => a :: dedupFirst (t.filter (fun x => x ≠ a))
termination_by l => l.length
decreasing_by
  simp only [List.length_cons, Nat.lt_succ_iff]
  exact t.length_filter_le _

/-- One step of `skill_counts[skill] = skill_counts.get(skill, 0) + 1` on an
insertion-ordered association list (Python `dict` preserves insertion order). -/
def bump {α : Type} [DecidableEq α] (acc : List (α × Nat)) (s : α) : List (α × Nat) :=
  match acc with
  | [] => [(s, 1)]
  | p :: t => if p.1 = s then (p.1, p.2 + 1) :: t else p :: bump t s

/-- Frequency tally of a list, keys in first-seen order. -/
def tally {α : Type} [DecidableEq α] (l : List α) : List (α × Nat) :=
  l.foldl bump []

/-- The descending-key order used by `list.sort(key=key, reverse=True)`. -/
def descRel {α β : Type} [LinearOrder β] (key : α → β) : α → α → Prop :=
  fun a b => key b ≤ key a

instance {α β : Type} [LinearOrder β] (key : α → β) : DecidableRel (descRel key) :=
  fun a b => inferInstanceAs (Decidable (key b ≤ key a))

instance {α β : Type} [LinearOrder β] (key : α → β) : IsTotal α (descRel key) :=
  ⟨fun a b => le_total (key b) (key a)⟩

instance {α β : Type} [LinearOrder β] (key : α → β) : IsTrans α (descRel key) :=
  ⟨fun _ _ _ h1 h2 => le_trans h2 h1⟩

/-- Python's stable `list.sort(key=key, reverse=True)`: descending in `key`,
ties keep their original relative order. -/
def pySortDesc {α β : Type} [LinearOrder β] (key : α → β) (l : List α) : List α :=
  List.insertionSort (descRel key) l

/-- Python `l[:n]` for an integer `n` (negative `n` counts from the end). -/
def pyTake {α : Type} (n : Int) (l : List α) : List α :=
  if 0 ≤ n then l.take n.toNat else l.take (l.length - (-n).toNat)

/-- Python 3 `round(x, 2)`: round half to even at two decimal places (binary
floating-point representation effects are not modelled). -/
def roundHalfEven (x : Rat) : Int :=
  let f := ⌊x⌋
  let r := x - f
  if r < 1/2 then f
  else if 1/2 < r then f + 1
  else if f % 2 = 0 then f else f + 1

def round2 (x : Rat) : Rat := (roundHalfEven (x * 100) : Rat) / 100

def round4 (x : Rat) : Rat := (roundHalfEven (x * 10000) : Rat) / 10000

/-! ## Schemas (src/src/schemas/{cv,job,match_result}.py)

Fields that the matching core never reads (contact data, salary, dates, …)
are omitted.  Optional free-text fields are `Option String`; Python
truthiness tests (`if self.summary:`) treat both `None` and `""` as absent,
mirrored by `optPart`. -/

structure Experience where
  position : Option String := none
  description : Option String := none
  skills_used : List String := []
deriving DecidableEq

structure Education where
  degree : Option String := none
  field_of_study : Option String := none
deriving DecidableEq

structure ExtractedCV where
  cv_id : String
  name : Option String := none
  summary : Option String := none
  technical_skills : List String := []
  soft_skills : List String := []
  all_skills : List String := []
  experiences : List Experience := []
  total_experience_years : Rat := 0
  education : List Education := []
  raw_text : String := ""
deriving DecidableEq

structure JobRequirements where
  required_skills : List String := []
  preferred_skills : List String := []
  experience_years_min : Option Int := none
  experience_years_max : Option Int := none
deriving DecidableEq

structure JobPosting where
  job_id : String
  title : String
  company_name : String
  description : String := ""
  requirements_text : String := ""
  requirements : JobRequirements := {}
deriving DecidableEq

inductive MatchCategory where
  | POTENTIAL
  | REVIEW_NEEDED
  | NOT_SUITABLE
deriving DecidableEq

structure MatchScore where
  overall_score : Rat
  category : MatchCategory
  skill_score : Rat
  experience_score : Rat
  text_similarity : Rat
deriving DecidableEq

structure GapAnalysis where
  matched_skills : List String
  missing_skills : List String
  extra_skills : List String
  skill_match_ratio : Rat
  required_experience_years : Option Int
  candidate_experience_years : Rat
  experience_gap : Rat
  recommendations : List String
deriving DecidableEq

structure MatchResult where
  cv_id : String
  job_id : String
  job_title : String
  company_name : String
  score : MatchScore
  gap_analysis : GapAnalysis
  rank : Option Nat := none
deriving DecidableEq

structure CompanyRanking where
  cv_id : String
  candidate_name : Option String
  candidate_skills : List String
  rankings : List MatchResult
  total_jobs_analyzed : Nat
  potential_count : Nat
  review_needed_count : Nat
  not_suitable_count : Nat
  top_companies : List String
  common_skill_gaps : List String
deriving DecidableEq

/-- A Python truthiness guard on an optional string: contributes the string
only when it is neither `None` nor empty. -/
def optPart (o : Option String) : List String :=
  match o with
  | some s => if s = "" then [] else [s]
  | none => []

/-- Python `str.lower()` on a whole string (ASCII fragment). -/
def lowerStr (s : String) : String := ⟨s.data.map toLowerChar⟩

/-- Embeds `ExtractedCV.get_all_skills`: the set union of the lowercased technical,
soft and combined skill lists (as a first-seen-ordered list). -/
def getAllSkills (cv : ExtractedCV) : List String :=
  dedupFirst (cv.technical_skills.map lowerStr ++ cv.soft_skills.map lowerStr ++
    cv.all_skills.map lowerStr)

/-- Embeds `ExtractedCV.get_searchable_text`. -/
def getSearchableText (cv : ExtractedCV) : String :=
  let parts :=
    optPart cv.summary ++ cv.technical_skills ++ cv.soft_skills ++
    (cv.experiences.flatMap fun e => optPart e.position ++ optPart e.description ++ e.skills_used) ++
    (cv.education.flatMap fun e => optPart e.field_of_study ++ optPart e.degree) ++
    (if cv.raw_text = "" then [] else [cv.raw_text])
  String.intercalate (" ") parts

/-- Embeds `JobPosting.get_full_text`: title, description, requirements text and the
skill lists, joined with spaces, empty parts dropped (`filter(None, parts)`). -/
def getFullText (job : JobPosting) : String :=
  let parts := [job.title, job.description, job.requirements_text,
    String.intercalate (" ") job.requirements.required_skills,
    String.intercalate (" ") job.requirements.preferred_skills]
  String.intercalate (" ") (parts.filter (fun p => p ≠ ""))

/-! ## Classifier (src/src/models/classifier.py) -/

/-- The classifier `MatchClassifier`: its constructor multiplies both thresholds by 100. -/
structure MatchClassifier where
  potential_threshold : Rat
  review_threshold : Rat

def mkMatchClassifier (potential review : Rat) : MatchClassifier :=
  { potential_threshold := potential * 100, review_threshold := review * 100 }

/-- Embeds `MatchClassifier.classify`. -/
def MatchClassifier.classify (c : MatchClassifier) (score : Rat) : MatchCategory :=
  if c.potential_threshold ≤ score then .POTENTIAL
  else if c.review_threshold ≤ score then .REVIEW_NEEDED
  else .NOT_SUITABLE

/-- The classifier with its default thresholds 0.75 and 0.50. -/
def defaultClassifier : MatchClassifier := mkMatchClassifier (3/4) (1/2)

/-! ## Skill extractor (src/src/preprocessing/skill_extractor.py)

The per-pattern `re.findall` scans (`SKILL_PATTERNS` applied by the compiled
`re` engine) are the `findMatches` parameter below; `extract` wraps them the
way the source does: empty text short-circuits to `[]`, every raw match is
normalized, falsy (empty) normal forms are dropped, and the result is the
sorted deduplicated set. -/

def extract (findMatches : String → List String) (text : String) : List String :=
  if text = "" then []
  else
    let skills := dedupFirst ((findMatches text).map normalizeSkill |>.filter (fun s => s ≠ ""))
    skills.insertionSort (fun a b => a.data ≤ b.data)

/-! ## Matcher (src/src/models/matcher.py) -/

/-- The matcher configuration plus its two external primitives:
`findMatches` is the compiled `re` pattern engine of the skill extractor and
`simFn` is the sklearn TF-IDF cosine similarity given a fitted corpus. -/
structure MatcherParams where
  findMatches : String → List String
  simFn : List String → String → String → Rat
  skill_match_weight : Rat := 1/2
  text_similarity_weight : Rat := 7/20
  experience_match_weight : Rat := 3/20
  potential_threshold : Rat := 3/4
  review_threshold : Rat := 1/2

/-- Embeds `CVJobMatcher._calculate_skill_match`.  Returns
`(score, matched, missing, extra)`.  The normalized skill sets are
first-seen-ordered lists; `matched`/`missing`/`extra` are the set
intersection and differences. -/
def calculateSkillMatch (cv_skills jd_skills : List String) :
    Rat × List String × List String × List String :=
  if jd_skills = [] then (100, [], [], cv_skills)
  else
    let cv_normalized := dedupFirst ((cv_skills.filter (fun s => s ≠ "")).map normalizeSkill)
    let jd_normalized := dedupFirst ((jd_skills.filter (fun s => s ≠ "")).map normalizeSkill)
    let matched := cv_normalized.filter (fun s => s ∈ jd_normalized)
    let missing := jd_normalized.filter (fun s => s ∉ cv_normalized)
    let extra := cv_normalized.filter (fun s => s ∉ jd_normalized)
    let match_ratio : Rat :=
      if jd_normalized ≠ [] then (matched.length : Rat) / (jd_normalized.length : Rat) else 0
    (match_ratio * 100, matched, missing, extra)

/-- Embeds `CVJobMatcher._calculate_experience_match`. -/
def calculateExperienceMatch (candidate_years : Rat)
    (required_min required_max : Option Int) : Rat :=
  match required_min with
  | none => 100
  | some rmin =>
    if (rmin : Rat) ≤ candidate_years then
      match required_max with
      | none => 100
      | some rmax =>
        if candidate_years ≤ (rmax : Rat) then 100
        else max 70 (100 - (candidate_years - (rmax : Rat)) * 5)
    else
      let gap := (rmin : Rat) - candidate_years
      if gap ≤ 1 then 70
      else if gap ≤ 2 then 50
      else max 20 (50 - gap * 10)

/-- Embeds `CVJobMatcher._calculate_text_similarity`: 0 when the vectorizer is
absent/unfitted or either text is empty; otherwise the TF-IDF cosine in the
fitted space (the `try`/`except` fallback is not modelled — the similarity
primitive is a total parameter). -/
def calculateTextSimilarity (P : MatcherParams) (corpus : Option (List String))
    (cv : ExtractedCV) (job : JobPosting) : Rat :=
  match corpus with
  | none => 0
  | some c =>
    if getSearchableText cv = "" ∨ getFullText job = "" then 0
    else P.simFn c (getSearchableText cv) (getFullText job)

/-- Embeds `CVJobMatcher._classify`. -/
def classifyScore (P : MatcherParams) (score : Rat) : MatchCategory :=
  if P.potential_threshold * 100 ≤ score then .POTENTIAL
  else if P.review_threshold * 100 ≤ score then .REVIEW_NEEDED
  else .NOT_SUITABLE

/-- Embeds `CVJobMatcher._generate_recommendations`. -/
def generateRecommendations (missing_skills : List String)
    (experience_score : Rat) : List String :=
  let recommendations :=
    (if missing_skills ≠ [] then
      if missing_skills.length ≤ 3 then
        ["Consider learning: " ++ String.intercalate (", ") missing_skills]
      else
        ["Missing " ++ toString missing_skills.length ++ " required skills. Priority: " ++
          String.intercalate (", ") (missing_skills.take 3)]
    else []) ++
    (if experience_score < 70 then ["More experience may be needed for this role"] else [])
  if recommendations = [] then ["Strong match! Consider applying."] else recommendations

/-- Step 1 of `CVJobMatcher.match`: the job's stored required skills if any,
otherwise the skills extracted from the job's full text. -/
def resolvedJdSkills (P : MatcherParams) (job : JobPosting) : List String :=
  if job.requirements.required_skills ≠ [] then job.requirements.required_skills
  else extract P.findMatches (getFullText job)

/-- Step 2 of `CVJobMatcher.match`: the candidate's stored skills if any,
otherwise the skills extracted from the candidate's searchable text. -/
def resolvedCvSkills (P : MatcherParams) (cv : ExtractedCV) : List String :=
  if getAllSkills cv ≠ [] then getAllSkills cv
  else extract P.findMatches (getSearchableText cv)

/-- Embeds `CVJobMatcher.match`: one CV against one job, given the current
(optional) fitted corpus. -/
def matchOne (P : MatcherParams) (corpus : Option (List String))
    (cv : ExtractedCV) (job : JobPosting) : MatchResult :=
  let jd_skills := resolvedJdSkills P job
  let cv_skills := resolvedCvSkills P cv
  let sm := calculateSkillMatch cv_skills jd_skills
  let skill_score := sm.1
  let matched := sm.2.1
  let missing := sm.2.2.1
  let extra := sm.2.2.2
  let text_similarity := calculateTextSimilarity P corpus cv job
  let experience_score := calculateExperienceMatch cv.total_experience_years
    job.requirements.experience_years_min job.requirements.experience_years_max
  let overall_score :=
    P.skill_match_weight * skill_score +
    P.text_similarity_weight * text_similarity * 100 +
    P.experience_match_weight * experience_score
  let category := classifyScore P overall_score
  let gap_analysis : GapAnalysis :=
    { matched_skills := matched
      missing_skills := missing
      extra_skills := extra
      skill_match_ratio :=
        if jd_skills ≠ [] then (matched.length : Rat) / (jd_skills.length : Rat) else 0
      required_experience_years := job.requirements.experience_years_min
      candidate_experience_years := cv.total_experience_years
      experience_gap :=
        ((job.requirements.experience_years_min.getD 0 : Int) : Rat) - cv.total_experience_years
      recommendations := generateRecommendations missing experience_score }
  { cv_id := cv.cv_id
    job_id := job.job_id
    job_title := job.title
    company_name := job.company_name
    score :=
      { overall_score := round2 overall_score
        category := category
        skill_score := round2 skill_score
        experience_score := round2 experience_score
        text_similarity := round4 text_similarity }
    gap_analysis := gap_analysis
    rank := none }

/-- Embeds `TFIDFVectorizer.fit` (src/src/models/vectorizer.py): raises on an empty
document list, otherwise records the corpus as the fitted space. -/
def fitVectorizer (documents : List String) : Except String (List String) :=
  if documents = [] then .error ("Cannot fit on empty document list")
  else .ok documents

/-- Rank assignment, `for i, result in enumerate(results): result.rank = i + 1`, with the
1-based position threaded as `k`. -/
def assignRanksFrom (k : Nat) : List MatchResult → List MatchResult
  | [] => []
  | r :: t => { r with rank := some k } :: assignRanksFrom (k + 1) t

/-- Embeds `CVJobMatcher._find_common_gaps`: tally missing-skill frequencies across
the given results (a Python dict, insertion-ordered), stably sort descending
by count and keep the five most frequent skill names. -/
def findCommonGaps (results : List MatchResult) : List String :=
  if results = [] then []
  else
    let skill_counts := tally (results.flatMap (fun r => r.gap_analysis.missing_skills))
    let sorted_skills := pySortDesc (fun p : String × Nat => p.2) skill_counts
    (sorted_skills.take 5).map (fun p => p.1)

/-- The batch corpus fitted by `match_cv_to_jobs`: every job's full text,
then the candidate's searchable text. -/
def batchCorpus (cv : ExtractedCV) (jobs : List JobPosting) : List String :=
  jobs.map getFullText ++ [getSearchableText cv]

/-- Truncation, `results[:top_n] if top_n else results`: the Python truthiness guard on
`top_n` (`None` and `0` both skip truncation). -/
def pyTakeOpt {α : Type} (top_n : Option Int) (l : List α) : List α :=
  match top_n with
  | some n => if n ≠ 0 then pyTake n l else l
  | none => l

/-- The sort key of `results.sort(key=lambda x: x.score.overall_score, ...)`. -/
def overallKey (r : MatchResult) : Rat := r.score.overall_score

/-- The per-job match results of one batch call, in job input order. -/
def matchResults (P : MatcherParams) (c : List String)
    (cv : ExtractedCV) (jobs : List JobPosting) : List MatchResult :=
  jobs.map (matchOne P (some c) cv)

/-- The body of `match_cv_to_jobs` after the fit step, given the fitted
corpus `c`: match every job in input order, stable-sort descending by
overall score, assign 1-based ranks, apply the `top_n` guard, and compute
every summary from the (possibly truncated) result list. -/
def buildRanking (P : MatcherParams) (c : List String)
    (cv : ExtractedCV) (jobs : List JobPosting) (top_n : Option Int) : CompanyRanking :=
  let results := matchResults P c cv jobs
  let sorted := pySortDesc overallKey results
  let ranked := assignRanksFrom 1 sorted
  let truncated := pyTakeOpt top_n ranked
  let top_matches := (truncated.filter (fun r => (50 : Rat) ≤ r.score.overall_score)).take 5
  { cv_id := cv.cv_id
    candidate_name := cv.name
    candidate_skills := getAllSkills cv
    rankings := truncated
    total_jobs_analyzed := jobs.length
    potential_count := (truncated.filter (fun r => r.score.category = .POTENTIAL)).length
    review_needed_count := (truncated.filter (fun r => r.score.category = .REVIEW_NEEDED)).length
    not_suitable_count := (truncated.filter (fun r => r.score.category = .NOT_SUITABLE)).length
    top_companies := (truncated.take 5).map (fun r => r.company_name)
    common_skill_gaps := findCommonGaps top_matches }

/-- Embeds `CVJobMatcher.match_cv_to_jobs`, from the state `corpus` of the matcher's
vectorizer (`none` = no fitted space yet).  Returns the ranking, the new
vectorizer state, and the list of corpora that were fitted during the call. -/
def matchCvToJobs (P : MatcherParams) (corpus : Option (List String))
    (cv : ExtractedCV) (jobs : List JobPosting) (top_n : Option Int) :
    Except String (CompanyRanking × Option (List String) × List (List String)) :=
  let fitStep : Except String (List String × List (List String)) :=
    match corpus with
    | none =>
      match fitVectorizer (batchCorpus cv jobs) with
      | .error e => .error e
      | .ok c => .ok (c, [batchCorpus cv jobs])
    | some c => .ok (c, [])
  match fitStep with
  | .error e => .error e
  | .ok (c, fits) => .ok (buildRanking P c cv jobs top_n, some c, fits)

/-- The corpus actually used to score every pair of one `match_cv_to_jobs`
call: the freshly fitted batch corpus on a first call, the previously fitted
space otherwise. -/
def usedCorpus (corpus : Option (List String)) (cv : ExtractedCV)
    (jobs : List JobPosting) : List String :=
  match corpus with
  | none => batchCorpus cv jobs
  | some c => c

/-- The ranking produced by a `match_cv_to_jobs` call (empty on the
unreachable error branch). -/
def rankingsOf (e : Except String (CompanyRanking × Option (List String) × List (List String))) :
    List MatchResult :=
  match e with
  | .ok x => x.1.rankings
  | .error _ => []

/-- The whole `CompanyRanking` of a call, with a vacuous default on the
unreachable error branch. -/
def rankingOf (e : Except String (CompanyRanking × Option (List String) × List (List String))) :
    CompanyRanking :=
  match e with
  | .ok x => x.1
  | .error _ =>
    { cv_id := "", candidate_name := none, candidate_skills := [], rankings := []
      total_jobs_analyzed := 0, potential_count := 0, review_needed_count := 0
      not_suitable_count := 0, top_companies := [], common_skill_gaps := [] }

/-- The vectorizer state after a call. -/
def stateOf (e : Except String (CompanyRanking × Option (List String) × List (List String))) :
    Option (List String) :=
  match e with
  | .ok x => x.2.1
  | .error _ => none

/-- The corpora fitted during a call. -/
def fitsOf (e : Except String (CompanyRanking × Option (List String) × List (List String))) :
    List (List String) :=
  match e with
  | .ok x => x.2.2
  | .error _ => []

/-- Forget the (orchestrator-assigned) rank of a match result. -/
def clearRank (r : MatchResult) : MatchResult := { r with rank := none }

/-- The normalized skill set of a raw skill list, as a finite set:
`{self.skill_dict.normalize(s) for s in skills if s}`. -/
def normSet (skills : List String) : Finset String :=
  ((skills.filter (fun s => s ≠ "")).map normalizeSkill).toFinset

/-! ## Concrete fixtures used by witnesses and counterexamples -/

/-- A pattern engine that finds nothing (any concrete engine works for the
facts below; where a fixture relies on it, the text is empty so `extract`
short-circuits before the engine is consulted). -/
def fixFindMatches : String → List String := fun _ => []

/-- A cosine-similarity primitive that always reports 0. -/
def fixSimFn : List String → String → String → Rat := fun _ _ _ => 0

/-- A matcher with the default weights and thresholds. -/
def fixP : MatcherParams := { findMatches := fixFindMatches, simFn := fixSimFn }

def fixCvPython : ExtractedCV :=
  { cv_id := "cv-1", technical_skills := ["python"], raw_text := "python developer" }

/-- A job whose full text is empty and whose stored skill list is empty, so
its resolved required-skill set is empty. -/
def fixJobEmpty : JobPosting :=
  { job_id := "job-0", title := "", company_name := "Acme" }

def fixJobA : JobPosting :=
  { job_id := "job-a", title := "Backend dev", company_name := "Acme",
    requirements := { required_skills := ["python"] } }

def fixJobB : JobPosting :=
  { job_id := "job-b", title := "Frontend dev", company_name := "Beta",
    requirements := { required_skills := ["javascript"] } }

/-- A job the fixture candidate scores poorly against: disjoint skills and a
ten-year experience requirement. -/
def fixJobHard : JobPosting :=
  { job_id := "job-h", title := "Lead dev", company_name := "Gamma",
    requirements := { required_skills := ["rust"], experience_years_min := some 10 } }

/-- A candidate with no stored skills and no text at all. -/
def fixCvNone : ExtractedCV := { cv_id := "cv-2" }

/-- First-seen deduplication relative to an already-seen list. -/
def dedupSeen {α : Type} [DecidableEq α] (seen : List α) : List α → List α
  | [] => []
  | a :: t => if a ∈ seen then dedupSeen seen t else a :: dedupSeen (a :: seen) t

/-- The pool of missing skills that `_find_common_gaps` tallies, given the
(possibly truncated) rankings: missing skills of the top five results with
overall score at least 50. -/
def topGapPool (rk : CompanyRanking) : List String :=
  ((rk.rankings.filter (fun r => (50 : Rat) ≤ r.score.overall_score)).take 5).flatMap
    (fun r => r.gap_analysis.missing_skills)

/-- Modelled from the spec's words, for comparison only (C9): the claimed
character class `[a-z0-9\s\-.\#+]` of the cleaned string — note it lacks the
underscore (and the other `\w` word characters) that the code's regex
`[^\w\s\-\.\#\+]` keeps. -/
def specC9AllowedChar (c : Char) : Bool :=
  ('a' ≤ c && c ≤ 'z') || ('0' ≤ c && c ≤ '9') || isPySpace c ||
    c = '-' || c = '.' || c = '#' || c = '+'

/-! ## Structural lemmas about the batch call -/

theorem batchCorpus_ne_nil (cv : ExtractedCV) (jobs : List JobPosting) :
    batchCorpus cv jobs ≠ [] := by
  simp [batchCorpus]

/-- The call `match_cv_to_jobs` never hits the empty-corpus error: the candidate's
text is always appended to the fit corpus. -/
theorem matchCvToJobs_eq (P : MatcherParams) (st : Option (List String))
    (cv : ExtractedCV) (jobs : List JobPosting) (top_n : Option Int) :
    matchCvToJobs P st cv jobs top_n =
      .ok (buildRanking P (usedCorpus st cv jobs) cv jobs top_n,
           some (usedCorpus st cv jobs),
           match st with
           | none => [batchCorpus cv jobs]
           | some _ => []) := by
  cases st <;>
    simp [matchCvToJobs, usedCorpus, fitVectorizer, batchCorpus]

theorem rankingOf_eq (P : MatcherParams) (st : Option (List String))
    (cv : ExtractedCV) (jobs : List JobPosting) (top_n : Option Int) :
    rankingOf (matchCvToJobs P st cv jobs top_n) =
      buildRanking P (usedCorpus st cv jobs) cv jobs top_n := by
  rw [matchCvToJobs_eq]; rfl

theorem rankingsOf_eq (P : MatcherParams) (st : Option (List String))
    (cv : ExtractedCV) (jobs : List JobPosting) (top_n : Option Int) :
    rankingsOf (matchCvToJobs P st cv jobs top_n) =
      (buildRanking P (usedCorpus st cv jobs) cv jobs top_n).rankings := by
  rw [matchCvToJobs_eq]; rfl

theorem stateOf_eq (P : MatcherParams) (st : Option (List String))
    (cv : ExtractedCV) (jobs : List JobPosting) (top_n : Option Int) :
    stateOf (matchCvToJobs P st cv jobs top_n) = some (usedCorpus st cv jobs) := by
  rw [matchCvToJobs_eq]; rfl

theorem fitsOf_eq (P : MatcherParams) (st : Option (List String))
    (cv : ExtractedCV) (jobs : List JobPosting) (top_n : Option Int) :
    fitsOf (matchCvToJobs P st cv jobs top_n) =
      (match st with
       | none => [batchCorpus cv jobs]
       | some _ => []) := by
  rw [matchCvToJobs_eq]; rfl

/-- The rankings field of `buildRanking`, spelled out. -/
theorem buildRanking_rankings (P : MatcherParams) (c : List String)
    (cv : ExtractedCV) (jobs : List JobPosting) (top_n : Option Int) :
    (buildRanking P c cv jobs top_n).rankings =
      pyTakeOpt top_n (assignRanksFrom 1 (pySortDesc overallKey (matchResults P c cv jobs))) :=
  rfl

/-! ## Lemmas about the stable descending sort -/

theorem pySortDesc_sorted {α β : Type} [LinearOrder β] (key : α → β) (l : List α) :
    (pySortDesc key l).Sorted (descRel key) :=
  List.sorted_insertionSort _ l

theorem pySortDesc_perm {α β : Type} [LinearOrder β] (key : α → β) (l : List α) :
    List.Perm (pySortDesc key l) l :=
  List.perm_insertionSort _ l

theorem filter_key_orderedInsert {α β : Type} [LinearOrder β] [DecidableEq β]
    (key : α → β) (v : β) (x : α) (l : List α) :
    (l.orderedInsert (descRel key) x).filter (fun y => key y = v) =
      if key x = v then x :: l.filter (fun y => key y = v)
      else l.filter (fun y => key y = v) := by
  induction l with
  | nil =>
    by_cases h : key x = v <;> simp [List.orderedInsert, List.filter, h]
  | cons b t ih =>
    by_cases hxb : descRel key x b
    · rw [List.orderedInsert_of_le _ _ hxb]
      by_cases hx : key x = v <;> simp [List.filter_cons, hx]
    · have hstep : (b :: t).orderedInsert (descRel key) x =
          b :: t.orderedInsert (descRel key) x := by
        simp [List.orderedInsert, hxb]
      rw [hstep]
      by_cases hx : key x = v
      · have hb : key b ≠ v := by
          intro hbv
          exact hxb (by simp [descRel, hbv, hx])
        simp [List.filter_cons, hb, hx, ih]
      · by_cases hb : key b = v <;> simp [List.filter_cons, hb, hx, ih]

/-- Stability of the descending sort: for every key value, the elements with
that key appear in the sorted list exactly as they appeared in the input. -/
theorem filter_key_pySortDesc {α β : Type} [LinearOrder β] [DecidableEq β]
    (key : α → β) (v : β) (l : List α) :
    (pySortDesc key l).filter (fun y => key y = v) = l.filter (fun y => key y = v) := by
  induction l with
  | nil => rfl
  | cons a t ih =>
    simp only [pySortDesc] at ih ⊢
    show ((List.insertionSort _ t).orderedInsert _ a).filter _ = _
    rw [filter_key_orderedInsert]
    by_cases hx : key a = v <;> simp [List.filter_cons, hx, ih]

/-! ## Lemmas about rank assignment -/

theorem assignRanksFrom_length (k : Nat) (l : List MatchResult) :
    (assignRanksFrom k l).length = l.length := by
  induction l generalizing k with
  | nil => rfl
  | cons r t ih => simp [assignRanksFrom, ih]

theorem assignRanksFrom_map_rank (k : Nat) (l : List MatchResult) :
    (assignRanksFrom k l).map (fun r => r.rank) =
      (List.range l.length).map (fun i => some (k + i)) := by
  induction l generalizing k with
  | nil => rfl
  | cons r t ih =>
    simp only [assignRanksFrom, List.map_cons, ih, List.length_cons,
      List.range_succ_eq_map, List.map_map]
    refine List.cons_eq_cons.mpr ⟨by simp, ?_⟩
    apply List.map_congr_left
    intro i _
    simp only [Function.comp_apply]
    congr 1
    omega

theorem assignRanksFrom_map_clearRank (k : Nat) (l : List MatchResult) :
    (assignRanksFrom k l).map clearRank = l.map clearRank := by
  induction l generalizing k with
  | nil => rfl
  | cons r t ih => simp [assignRanksFrom, ih, clearRank]

theorem assignRanksFrom_map_overall (k : Nat) (l : List MatchResult) :
    (assignRanksFrom k l).map overallKey = l.map overallKey := by
  induction l generalizing k with
  | nil => rfl
  | cons r t ih => simp [assignRanksFrom, ih, overallKey]

theorem assignRanksFrom_pairwise (k : Nat) (l : List MatchResult)
    (h : l.Pairwise (descRel overallKey)) :
    (assignRanksFrom k l).Pairwise (descRel overallKey) := by
  have h2 : (l.map overallKey).Pairwise (fun x y : Rat => y ≤ x) := by
    rw [List.pairwise_map]
    exact h
  have h1 : ((assignRanksFrom k l).map overallKey).Pairwise (fun x y : Rat => y ≤ x) := by
    rw [assignRanksFrom_map_overall]
    exact h2
  rw [List.pairwise_map] at h1
  exact h1

/-- Every `pyTakeOpt` result is a prefix of its input. -/
theorem pyTakeOpt_isPrefix {α : Type} (top_n : Option Int) (l : List α) :
    (pyTakeOpt top_n l) <+: l := by
  cases top_n with
  | none => exact List.prefix_refl l
  | some n =>
    by_cases hn : n ≠ 0
    · show (if n ≠ 0 then pyTake n l else l) <+: l
      rw [if_pos hn]
      unfold pyTake
      by_cases h0 : 0 ≤ n
      · rw [if_pos h0]
        exact List.take_prefix _ _
      · rw [if_neg h0]
        exact List.take_prefix _ _
    · simp [pyTakeOpt, hn]

/-- Extensionally, `pyTakeOpt` is a `take`. -/
theorem pyTakeOpt_eq_take {α : Type} (top_n : Option Int) (l : List α) :
    ∃ m, pyTakeOpt top_n l = l.take m := by
  cases top_n with
  | none => exact ⟨l.length, (List.take_length l).symm⟩
  | some n =>
    by_cases hn : n ≠ 0
    · show ∃ m, (if n ≠ 0 then pyTake n l else l) = l.take m
      rw [if_pos hn]
      unfold pyTake
      by_cases h0 : 0 ≤ n
      · exact ⟨n.toNat, by rw [if_pos h0]⟩
      · exact ⟨l.length - (-n).toNat, by rw [if_neg h0]⟩
    · exact ⟨l.length, by simp [pyTakeOpt, hn]⟩

/-! ## Lemmas about `dedupFirst` -/

theorem mem_dedupFirst {α : Type} [DecidableEq α] (x : α) :
    ∀ l : List α, x ∈ dedupFirst l ↔ x ∈ l := by
  intro l
  generalize hn : l.length = n
  induction n using Nat.strong_induction_on generalizing l with
  | _ n ih =>
    cases l with
    | nil => simp [dedupFirst]
    | cons a t =>
      rw [dedupFirst]
      subst hn
      have ht : (t.filter (fun y => y ≠ a)).length < (a :: t).length :=
        Nat.lt_succ_of_le (t.length_filter_le _)
      constructor
      · intro hx
        rcases List.mem_cons.mp hx with h | h
        · exact h ▸ List.mem_cons_self a t
        · have := (ih _ ht _ rfl).mp h
          exact List.mem_cons_of_mem a (List.mem_of_mem_filter this)
      · intro hx
        rcases List.mem_cons.mp hx with h | h
        · exact h ▸ List.mem_cons_self a _
        · by_cases hxa : x = a
          · exact hxa ▸ List.mem_cons_self a _
          · refine List.mem_cons_of_mem a ((ih _ ht _ rfl).mpr ?_)
            exact List.mem_filter.mpr ⟨h, by simp [hxa]⟩

theorem dedupFirst_nodup {α : Type} [DecidableEq α] :
    ∀ l : List α, (dedupFirst l).Nodup := by
  intro l
  generalize hn : l.length = n
  induction n using Nat.strong_induction_on generalizing l with
  | _ n ih =>
    cases l with
    | nil => simp [dedupFirst]
    | cons a t =>
      rw [dedupFirst]
      subst hn
      have ht : (t.filter (fun y => y ≠ a)).length < (a :: t).length :=
        Nat.lt_succ_of_le (t.length_filter_le _)
      refine List.nodup_cons.mpr ⟨?_, ih _ ht _ rfl⟩
      intro ha
      have := List.of_mem_filter ((mem_dedupFirst a _).mp ha)
      simp at this

theorem dedupFirst_toFinset {α : Type} [DecidableEq α] (l : List α) :
    (dedupFirst l).toFinset = l.toFinset := by
  ext x
  simp [List.mem_toFinset, mem_dedupFirst]

theorem dedupFirst_length {α : Type} [DecidableEq α] (l : List α) :
    (dedupFirst l).length = l.toFinset.card := by
  rw [← dedupFirst_toFinset, List.toFinset_card_of_nodup (dedupFirst_nodup l)]

/-! ## Bridge lemmas between ranked results and raw match results -/

theorem matchOne_rank (P : MatcherParams) (c : Option (List String))
    (cv : ExtractedCV) (job : JobPosting) : (matchOne P c cv job).rank = none :=
  rfl

theorem clearRank_matchOne (P : MatcherParams) (c : Option (List String))
    (cv : ExtractedCV) (job : JobPosting) :
    clearRank (matchOne P c cv job) = matchOne P c cv job :=
  rfl

theorem overallKey_clearRank (r : MatchResult) : overallKey (clearRank r) = overallKey r :=
  rfl

/-- Filtering on a score level commutes with forgetting ranks. -/
theorem filter_score_map_clearRank (L : List MatchResult) (v : Rat) :
    (L.map clearRank).filter (fun r => overallKey r = v) =
      (L.filter (fun r => overallKey r = v)).map clearRank := by
  have hp : ((fun r => decide (overallKey r = v)) ∘ clearRank) =
      (fun r : MatchResult => decide (overallKey r = v)) :=
    funext fun r => rfl
  rw [List.filter_map clearRank L, hp]

/-- Every raw result of a batch carries no rank, so forgetting ranks is the
identity there. -/
theorem map_clearRank_matchResults_filter (P : MatcherParams) (c : List String)
    (cv : ExtractedCV) (jobs : List JobPosting) (p : MatchResult → Bool) :
    ((matchResults P c cv jobs).filter p).map clearRank =
      (matchResults P c cv jobs).filter p := by
  have h : ∀ r ∈ (matchResults P c cv jobs).filter p, clearRank r = r := by
    intro r hr
    obtain ⟨job, _, rfl⟩ := List.mem_map.mp (List.mem_of_mem_filter hr)
    rfl
  calc ((matchResults P c cv jobs).filter p).map clearRank
      = ((matchResults P c cv jobs).filter p).map id := List.map_congr_left h
    _ = (matchResults P c cv jobs).filter p := List.map_id _

/-- C1 helper: filtering any score level out of the ranked-and-truncated list
and forgetting ranks yields a prefix of the same filter of the raw results. -/
theorem rankings_filter_prefix (P : MatcherParams) (c : List String)
    (cv : ExtractedCV) (jobs : List JobPosting) (top_n : Option Int) (v : Rat) :
    (((buildRanking P c cv jobs top_n).rankings.filter
        (fun r => overallKey r = v)).map clearRank) <+:
      ((matchResults P c cv jobs).filter (fun r => overallKey r = v)) := by
  rw [buildRanking_rankings]
  have e1 : ((assignRanksFrom 1 (pySortDesc overallKey (matchResults P c cv jobs))).filter
      (fun r => overallKey r = v)).map clearRank =
      (matchResults P c cv jobs).filter (fun r => overallKey r = v) := by
    calc ((assignRanksFrom 1 (pySortDesc overallKey (matchResults P c cv jobs))).filter
        (fun r => overallKey r = v)).map clearRank
        = ((assignRanksFrom 1 (pySortDesc overallKey (matchResults P c cv jobs))).map
            clearRank).filter (fun r => overallKey r = v) :=
          (filter_score_map_clearRank _ v).symm
      _ = ((pySortDesc overallKey (matchResults P c cv jobs)).map clearRank).filter
            (fun r => overallKey r = v) := by
          rw [assignRanksFrom_map_clearRank]
      _ = ((pySortDesc overallKey (matchResults P c cv jobs)).filter
            (fun r => overallKey r = v)).map clearRank :=
          filter_score_map_clearRank _ v
      _ = ((matchResults P c cv jobs).filter (fun r => overallKey r = v)).map clearRank := by
          rw [filter_key_pySortDesc]
      _ = (matchResults P c cv jobs).filter (fun r => overallKey r = v) :=
          map_clearRank_matchResults_filter P c cv jobs _
  have hpre :
      ((pyTakeOpt top_n (assignRanksFrom 1 (pySortDesc overallKey
          (matchResults P c cv jobs)))).filter (fun r => overallKey r = v)).map clearRank <+:
        ((assignRanksFrom 1 (pySortDesc overallKey (matchResults P c cv jobs))).filter
          (fun r => overallKey r = v)).map clearRank :=
    ((pyTakeOpt_isPrefix top_n _).filter _).map _
  rw [e1] at hpre
  exact hpre

/-! ## Lemmas for the skill-match formulas -/

theorem length_filter_dedup_inter {α : Type} [DecidableEq α] (l1 l2 : List α) :
    ((dedupFirst l1).filter (fun x => x ∈ dedupFirst l2)).length =
      (l1.toFinset ∩ l2.toFinset).card := by
  have hnd : ((dedupFirst l1).filter (fun x => x ∈ dedupFirst l2)).Nodup :=
    (dedupFirst_nodup l1).filter _
  rw [← List.toFinset_card_of_nodup hnd]
  congr 1
  ext x
  simp [List.mem_filter, mem_dedupFirst]

theorem dedupFirst_eq_nil_iff {α : Type} [DecidableEq α] (l : List α) :
    dedupFirst l = [] ↔ l = [] := by
  cases l with
  | nil => simp [dedupFirst]
  | cons a t => rw [dedupFirst]; simp

/-- The skill score of `_calculate_skill_match`, expressed with the claim's
set-cardinality formula (in `Rat`, division by zero is zero, which coincides
with the code's explicit guard). -/
theorem calculateSkillMatch_score_eq (cv_skills jd_skills : List String) :
    (calculateSkillMatch cv_skills jd_skills).1 =
      if jd_skills = [] then 100
      else 100 * ((normSet cv_skills ∩ normSet jd_skills).card : Rat) /
        ((normSet jd_skills).card : Rat) := by
  by_cases h : jd_skills = []
  · simp [calculateSkillMatch, h]
  · rw [if_neg h]
    simp only [calculateSkillMatch, if_neg h]
    by_cases hjd : dedupFirst ((jd_skills.filter (fun s => s ≠ "")).map normalizeSkill) = []
    · have hfin : ((jd_skills.filter (fun s => s ≠ "")).map normalizeSkill).toFinset = ∅ := by
        rw [← dedupFirst_toFinset, hjd]
        rfl
      simp only [hjd, ne_eq, not_true_eq_false, if_false, normSet, hfin]
      norm_num
    · rw [if_pos hjd]
      rw [length_filter_dedup_inter, dedupFirst_length]
      show (_ : Rat) / _ * 100 = _
      unfold normSet
      ring

/-- The matched-skill list of `_calculate_skill_match` when the job list is
non-empty. -/
theorem calculateSkillMatch_matched (cv_skills jd_skills : List String)
    (h : jd_skills ≠ []) :
    (calculateSkillMatch cv_skills jd_skills).2.1 =
      (dedupFirst ((cv_skills.filter (fun s => s ≠ "")).map normalizeSkill)).filter
        (fun s => s ∈ dedupFirst ((jd_skills.filter (fun s => s ≠ "")).map normalizeSkill)) := by
  simp only [calculateSkillMatch, if_neg h]

/-! ## Claim theorems -/

/-- C1: every ranking produced by `match_cv_to_jobs` is sorted non-increasing
by `overall_score`; ties between equal scores preserve the original job input
order (every score-level slice of the output, ranks forgotten, is a prefix of
the same slice of the input-order results — a prefix rather than the full
slice only because `top_n` may cut the list); and the rank fields are exactly
1, 2, …, len(results) in order with no gaps or repeats. -/
theorem claim_C1 (P : MatcherParams) (st : Option (List String)) (cv : ExtractedCV)
    (jobs : List JobPosting) (top_n : Option Int) :
    (rankingsOf (matchCvToJobs P st cv jobs top_n)).Pairwise
        (fun a b => b.score.overall_score ≤ a.score.overall_score) ∧
    (∀ v : Rat,
      ((rankingsOf (matchCvToJobs P st cv jobs top_n)).filter
          (fun r => overallKey r = v)).map clearRank <+:
        (matchResults P (usedCorpus st cv jobs) cv jobs).filter
          (fun r => overallKey r = v)) ∧
    (rankingsOf (matchCvToJobs P st cv jobs top_n)).map (fun r => r.rank) =
      (List.range (rankingsOf (matchCvToJobs P st cv jobs top_n)).length).map
        (fun i => some (i + 1)) := by
  rw [rankingsOf_eq]
  refine ⟨?_, ?_, ?_⟩
  · rw [buildRanking_rankings]
    have hs := pySortDesc_sorted overallKey (matchResults P (usedCorpus st cv jobs) cv jobs)
    have hr := assignRanksFrom_pairwise 1 _ hs
    exact hr.sublist (pyTakeOpt_isPrefix _ _).sublist
  · intro v
    exact rankings_filter_prefix P (usedCorpus st cv jobs) cv jobs top_n v
  · rw [buildRanking_rankings]
    obtain ⟨m, hm⟩ := pyTakeOpt_eq_take top_n
      (assignRanksFrom 1 (pySortDesc overallKey (matchResults P (usedCorpus st cv jobs) cv jobs)))
    rw [hm, List.map_take, assignRanksFrom_map_rank, List.length_take, assignRanksFrom_length,
      ← List.map_take, List.take_range]
    apply List.map_congr_left
    intro i _
    congr 1
    omega



theorem round2_hundred : round2 100 = 100 := by
  have h : ((10000 : Int) : Rat) = (100 : Rat) * 100 := by norm_num
  rw [round2, roundHalfEven]
  rw [← h, Int.floor_intCast]
  norm_num

/-- C2: under the default thresholds the classifier's bands are exactly
`[75, ∞) → POTENTIAL`, `[50, 75) → REVIEW_NEEDED`, `(-∞, 50) → NOT_SUITABLE`
(each lower bound inclusive), with the four boundary evaluations of the
claim, and `CVJobMatcher._classify` with default thresholds agrees with the
classifier. -/
theorem claim_C2 (score : Rat) (h0 : 0 ≤ score) (h1 : score ≤ 100) :
    (defaultClassifier.classify score = .POTENTIAL ↔ 75 ≤ score) ∧
    (defaultClassifier.classify score = .REVIEW_NEEDED ↔ 50 ≤ score ∧ score < 75) ∧
    (defaultClassifier.classify score = .NOT_SUITABLE ↔ score < 50) ∧
    defaultClassifier.classify 75 = .POTENTIAL ∧
    defaultClassifier.classify (7499/100) = .REVIEW_NEEDED ∧
    defaultClassifier.classify 50 = .REVIEW_NEEDED ∧
    defaultClassifier.classify (4999/100) = .NOT_SUITABLE ∧
    (∀ s : Rat, classifyScore fixP s = defaultClassifier.classify s) := by
  have hcl : ∀ s : Rat, defaultClassifier.classify s =
      if 75 ≤ s then MatchCategory.POTENTIAL
      else if 50 ≤ s then MatchCategory.REVIEW_NEEDED
      else MatchCategory.NOT_SUITABLE := by
    intro s
    show (if (3/4 : Rat) * 100 ≤ s then MatchCategory.POTENTIAL
      else if (1/2 : Rat) * 100 ≤ s then MatchCategory.REVIEW_NEEDED
      else MatchCategory.NOT_SUITABLE) = _
    norm_num
  refine ⟨?_, ?_, ?_, ?_, ?_, ?_, ?_, ?_⟩
  · rw [hcl]
    split_ifs with hA hB
    · exact iff_of_true rfl hA
    · exact iff_of_false (by simp) hA
    · exact iff_of_false (by simp) hA
  · rw [hcl]
    split_ifs with hA hB
    · exact iff_of_false (by simp) (fun hc => absurd hA (not_le.mpr hc.2))
    · exact iff_of_true rfl ⟨hB, lt_of_not_le hA⟩
    · exact iff_of_false (by simp) (fun hc => hB hc.1)
  · rw [hcl]
    split_ifs with hA hB
    · exact iff_of_false (by simp) (fun hc => absurd hA (not_le.mpr (by linarith)))
    · exact iff_of_false (by simp) (fun hc => absurd hB (not_le.mpr hc))
    · exact iff_of_true rfl (lt_of_not_le hB)
  · rw [hcl]; norm_num
  · rw [hcl]; norm_num
  · rw [hcl]; norm_num
  · rw [hcl]; norm_num
  · intro s
    rw [hcl]
    show (if (3/4 : Rat) * 100 ≤ s then MatchCategory.POTENTIAL
      else if (1/2 : Rat) * 100 ≤ s then MatchCategory.REVIEW_NEEDED
      else MatchCategory.NOT_SUITABLE) = _
    norm_num

theorem claim_C2_witness :
    defaultClassifier.classify 75 = .POTENTIAL ∧
    defaultClassifier.classify (7499/100) = .REVIEW_NEEDED :=
  ⟨(claim_C2 75 (by norm_num) (by norm_num)).2.2.2.1,
   (claim_C2 (7499/100) (by norm_num) (by norm_num)).2.2.2.2.1⟩

/-- C3: the skill score equals `100 × |matched| / |job_skills_normalized|`
(where `matched` is the intersection of the normalized candidate and job
skill sets), is 100 whenever the job's resolved required-skill list is empty
regardless of the candidate's skills, and this is exactly the (rounded)
`skill_score` stored by `match`. -/
theorem claim_C3 (P : MatcherParams) (corpus : Option (List String))
    (cv : ExtractedCV) (job : JobPosting) (cv_skills jd_skills : List String) :
    ((calculateSkillMatch cv_skills jd_skills).1 =
      if jd_skills = [] then 100
      else 100 * ((normSet cv_skills ∩ normSet jd_skills).card : Rat) /
        ((normSet jd_skills).card : Rat)) ∧
    (jd_skills = [] → (calculateSkillMatch cv_skills jd_skills).1 = 100) ∧
    ((matchOne P corpus cv job).score.skill_score =
      round2 (calculateSkillMatch (resolvedCvSkills P cv) (resolvedJdSkills P job)).1) ∧
    (resolvedJdSkills P job = [] → (matchOne P corpus cv job).score.skill_score = 100) := by
  refine ⟨calculateSkillMatch_score_eq cv_skills jd_skills, ?_, rfl, ?_⟩
  · intro h
    simp [calculateSkillMatch, h]
  · intro h
    show round2 (calculateSkillMatch (resolvedCvSkills P cv) (resolvedJdSkills P job)).1 = 100
    rw [h]
    have : (calculateSkillMatch (resolvedCvSkills P cv) []).1 = 100 := by
      simp [calculateSkillMatch]
    rw [this, round2_hundred]

theorem claim_C3_witness :
    resolvedJdSkills fixP fixJobEmpty = [] ∧
    (matchOne fixP none fixCvPython fixJobEmpty).score.skill_score = 100 :=
  ⟨rfl, (claim_C3 fixP none fixCvPython fixJobEmpty [] []).2.2.2 rfl⟩

/-- C4 as written is false on the code: with an empty resolved required-skill
set the Gap Analysis ratio is 0, not 1.0 (`len(matched)/len(jd_skills) if
jd_skills else 0`). -/
theorem claim_C4_counterexample :
    resolvedJdSkills fixP fixJobEmpty = [] ∧
    (matchOne fixP none fixCvPython fixJobEmpty).gap_analysis.skill_match_ratio = 0 ∧
    (matchOne fixP none fixCvPython fixJobEmpty).gap_analysis.skill_match_ratio ≠ 1 := by
  refine ⟨rfl, rfl, ?_⟩
  have h : (matchOne fixP none fixCvPython fixJobEmpty).gap_analysis.skill_match_ratio = 0 := rfl
  rw [h]
  norm_num

theorem matchOne_ratio_eq (P : MatcherParams) (corpus : Option (List String))
    (cv : ExtractedCV) (job : JobPosting) :
    (matchOne P corpus cv job).gap_analysis.skill_match_ratio =
      if resolvedJdSkills P job ≠ [] then
        (((calculateSkillMatch (resolvedCvSkills P cv) (resolvedJdSkills P job)).2.1.length : Rat) /
          ((resolvedJdSkills P job).length : Rat))
      else 0 :=
  rfl

/-- C4, amended: `skill_match_ratio` lies in `[0,1]` and equals
`|matched| / len(jd_skills)` (denominator the resolved required-skill list,
`matched` the normalized-set intersection) when the resolved list is
non-empty, but it is 0 — not 1.0 — when the resolved required-skill list is
empty. -/
theorem claim_C4_amended (P : MatcherParams) (corpus : Option (List String))
    (cv : ExtractedCV) (job : JobPosting) :
    0 ≤ (matchOne P corpus cv job).gap_analysis.skill_match_ratio ∧
    (matchOne P corpus cv job).gap_analysis.skill_match_ratio ≤ 1 ∧
    (matchOne P corpus cv job).gap_analysis.skill_match_ratio =
      (if resolvedJdSkills P job = [] then 0
       else ((normSet (resolvedCvSkills P cv) ∩ normSet (resolvedJdSkills P job)).card : Rat) /
         ((resolvedJdSkills P job).length : Rat)) := by
  rw [matchOne_ratio_eq]
  by_cases h : resolvedJdSkills P job = []
  · simp [h]
  · rw [if_pos h, if_neg h, calculateSkillMatch_matched _ _ h,
      length_filter_dedup_inter]
    have hcard : ((normSet (resolvedCvSkills P cv) ∩ normSet (resolvedJdSkills P job)).card) ≤
        (resolvedJdSkills P job).length := by
      calc (normSet (resolvedCvSkills P cv) ∩ normSet (resolvedJdSkills P job)).card
          ≤ (normSet (resolvedJdSkills P job)).card :=
            Finset.card_le_card Finset.inter_subset_right
        _ ≤ (((resolvedJdSkills P job).filter (fun s => s ≠ "")).map normalizeSkill).length :=
            List.toFinset_card_le _
        _ = ((resolvedJdSkills P job).filter (fun s => s ≠ "")).length := List.length_map _ _
        _ ≤ (resolvedJdSkills P job).length := List.length_filter_le _ _
    have hpos : (0 : Rat) < ((resolvedJdSkills P job).length : Rat) := by
      have := List.length_pos.mpr h
      exact_mod_cast this
    refine ⟨?_, ?_, rfl⟩
    · positivity
    · rw [div_le_one hpos]
      exact_mod_cast hcard

theorem claim_C4_amended_witness :
    0 ≤ (matchOne fixP none fixCvPython fixJobA).gap_analysis.skill_match_ratio ∧
    (matchOne fixP none fixCvPython fixJobA).gap_analysis.skill_match_ratio ≤ 1 :=
  ⟨(claim_C4_amended fixP none fixCvPython fixJobA).1,
   (claim_C4_amended fixP none fixCvPython fixJobA).2.1⟩

/-- C5 as written is false on the code: a second batch call on the same
matcher fits nothing and reuses the vector space of the previous batch (the
guard is `if self.vectorizer is None or not self.vectorizer.is_fitted`), even
though the second batch's corpus differs. -/
theorem claim_C5_counterexample :
    fitsOf (matchCvToJobs fixP (stateOf (matchCvToJobs fixP none fixCvPython [fixJobA] none))
      fixCvPython [fixJobB] none) = [] ∧
    stateOf (matchCvToJobs fixP (stateOf (matchCvToJobs fixP none fixCvPython [fixJobA] none))
      fixCvPython [fixJobB] none) = some (batchCorpus fixCvPython [fixJobA]) ∧
    batchCorpus fixCvPython [fixJobA] ≠ batchCorpus fixCvPython [fixJobB] := by
  refine ⟨rfl, rfl, by decide⟩

/-- C5, amended: on a call where the matcher holds no fitted space, the space
is fitted exactly once, over the batch corpus (every job's full text of this
batch followed by the candidate's searchable text), and that space is the one
used; on a call where a fitted space already exists — e.g. from a previous
batch — nothing is fitted and the existing space is used.  In no case is the
space fitted more than once (in particular never per pair). -/
theorem claim_C5_amended (P : MatcherParams) (st : Option (List String))
    (cv : ExtractedCV) (jobs : List JobPosting) (top_n : Option Int) :
    (st = none →
      fitsOf (matchCvToJobs P st cv jobs top_n) = [batchCorpus cv jobs] ∧
      stateOf (matchCvToJobs P st cv jobs top_n) = some (batchCorpus cv jobs)) ∧
    (∀ c, st = some c →
      fitsOf (matchCvToJobs P st cv jobs top_n) = [] ∧
      stateOf (matchCvToJobs P st cv jobs top_n) = some c) ∧
    (fitsOf (matchCvToJobs P st cv jobs top_n)).length ≤ 1 := by
  refine ⟨?_, ?_, ?_⟩
  · intro h
    subst h
    rw [fitsOf_eq, stateOf_eq]
    exact ⟨rfl, rfl⟩
  · intro c h
    subst h
    rw [fitsOf_eq, stateOf_eq]
    exact ⟨rfl, rfl⟩
  · rw [fitsOf_eq]
    cases st <;> simp

theorem claim_C5_amended_witness :
    fitsOf (matchCvToJobs fixP none fixCvPython [fixJobA] none) =
      [batchCorpus fixCvPython [fixJobA]] ∧
    stateOf (matchCvToJobs fixP none fixCvPython [fixJobA] none) =
      some (batchCorpus fixCvPython [fixJobA]) :=
  (claim_C5_amended fixP none fixCvPython [fixJobA] none).1 rfl

/-- C6 as written is false on the code: with `top_n = 0` the Python
truthiness guard `if top_n:` skips truncation, so the full result list is
returned (one entry here) instead of the first 0 entries. -/
theorem claim_C6_counterexample :
    (rankingOf (matchCvToJobs fixP none fixCvPython [fixJobA] (some 0))).rankings.length = 1 ∧
    (1 : Nat) ≠ 0 :=
  ⟨rfl, one_ne_zero⟩

/-- C6, amended: when `rank` is called with a positive `top_n`, the sorted
result list is truncated to its first `top_n` entries after rank assignment,
and the category counts and `top_companies` (first five companies of the
truncated list, in rank order, duplicates allowed) are computed from the
truncated list (with `top_n = 0` the truthiness guard skips truncation
entirely, see the counterexample). -/
theorem claim_C6_amended (P : MatcherParams) (st : Option (List String))
    (cv : ExtractedCV) (jobs : List JobPosting) (n : Int) (hn : 0 < n) :
    (rankingOf (matchCvToJobs P st cv jobs (some n))).rankings =
      (assignRanksFrom 1 (pySortDesc overallKey
        (matchResults P (usedCorpus st cv jobs) cv jobs))).take n.toNat ∧
    (rankingOf (matchCvToJobs P st cv jobs (some n))).rankings.length =
      min n.toNat jobs.length ∧
    (rankingOf (matchCvToJobs P st cv jobs (some n))).potential_count =
      ((rankingOf (matchCvToJobs P st cv jobs (some n))).rankings.filter
        (fun r => r.score.category = .POTENTIAL)).length ∧
    (rankingOf (matchCvToJobs P st cv jobs (some n))).review_needed_count =
      ((rankingOf (matchCvToJobs P st cv jobs (some n))).rankings.filter
        (fun r => r.score.category = .REVIEW_NEEDED)).length ∧
    (rankingOf (matchCvToJobs P st cv jobs (some n))).not_suitable_count =
      ((rankingOf (matchCvToJobs P st cv jobs (some n))).rankings.filter
        (fun r => r.score.category = .NOT_SUITABLE)).length ∧
    (rankingOf (matchCvToJobs P st cv jobs (some n))).top_companies =
      ((rankingOf (matchCvToJobs P st cv jobs (some n))).rankings.take 5).map
        (fun r => r.company_name) := by
  have htr : (rankingOf (matchCvToJobs P st cv jobs (some n))).rankings =
      (assignRanksFrom 1 (pySortDesc overallKey
        (matchResults P (usedCorpus st cv jobs) cv jobs))).take n.toNat := by
    rw [rankingOf_eq, buildRanking_rankings]
    show pyTakeOpt (some n) _ = _
    have hne : n ≠ 0 := by omega
    show (if n ≠ 0 then pyTake n _ else _) = _
    rw [if_pos hne]
    unfold pyTake
    rw [if_pos (le_of_lt hn)]
  refine ⟨htr, ?_, ?_, ?_, ?_, ?_⟩
  · rw [htr, List.length_take, assignRanksFrom_length,
      (pySortDesc_perm overallKey _).length_eq]
    simp [matchResults]
  · rw [rankingOf_eq]
    rfl
  · rw [rankingOf_eq]
    rfl
  · rw [rankingOf_eq]
    rfl
  · rw [rankingOf_eq]
    rfl

theorem claim_C6_amended_witness :
    (rankingOf (matchCvToJobs fixP none fixCvPython [fixJobA, fixJobB] (some 1))).rankings.length =
      min (Int.toNat 1) 2 :=
  (claim_C6_amended fixP none fixCvPython [fixJobA, fixJobB] 1 (by norm_num)).2.1

theorem bump_map_fst {α : Type} [DecidableEq α] (acc : List (α × Nat)) (s : α) :
    (bump acc s).map Prod.fst =
      if s ∈ acc.map Prod.fst then acc.map Prod.fst else acc.map Prod.fst ++ [s] := by
  induction acc with
  | nil => simp [bump]
  | cons p t ih =>
    by_cases hp : p.1 = s
    · simp [bump, hp]
    · simp only [bump, if_neg hp, List.map_cons, ih, List.mem_cons]
      by_cases hm : s ∈ t.map Prod.fst
      · simp [hm, Ne.symm hp]
      · simp [hm, Ne.symm hp]

theorem lookupA_bump_self {α : Type} [DecidableEq α] (acc : List (α × Nat)) (s : α) :
    lookupA s (bump acc s) = some ((lookupA s acc).getD 0 + 1) := by
  induction acc with
  | nil => simp [bump, lookupA]
  | cons p t ih =>
    by_cases hp : p.1 = s
    · simp [bump, hp, lookupA]
    · simp [bump, hp, lookupA, ih]

theorem lookupA_bump_ne {α : Type} [DecidableEq α] (acc : List (α × Nat)) (s t : α)
    (h : t ≠ s) : lookupA t (bump acc s) = lookupA t acc := by
  have hst : s ≠ t := Ne.symm h
  induction acc with
  | nil => simp only [bump, lookupA, if_neg hst]
  | cons p tl ih =>
    simp only [bump]
    by_cases hp : p.1 = s
    · rw [if_pos hp]
      have hpt : p.1 ≠ t := fun hc => hst (hp ▸ hc)
      simp only [lookupA, if_neg hpt]
    · rw [if_neg hp]
      simp only [lookupA]
      by_cases hq : p.1 = t
      · rw [if_pos hq, if_pos hq]
      · rw [if_neg hq, if_neg hq, ih]

/-- The count stored for `t` after folding `bump` over `l`. -/
theorem cnt_foldl_bump {α : Type} [DecidableEq α] (l : List α)
    (acc : List (α × Nat)) (t : α) :
    (lookupA t (l.foldl bump acc)).getD 0 = (lookupA t acc).getD 0 + l.count t := by
  induction l generalizing acc with
  | nil => simp
  | cons x xs ih =>
    show (lookupA t (xs.foldl bump (bump acc x))).getD 0 = _
    rw [ih]
    by_cases hx : t = x
    · subst hx
      rw [lookupA_bump_self]
      simp only [Option.getD_some, List.count_cons, beq_self_eq_true, if_true]
      omega
    · rw [lookupA_bump_ne _ _ _ hx]
      have hxt : ¬x = t := fun hc => hx hc.symm
      simp [List.count_cons, hxt]

theorem dedupSeen_congr {α : Type} [DecidableEq α] (s1 s2 : List α) (l : List α)
    (h : ∀ y, y ∈ s1 ↔ y ∈ s2) : dedupSeen s1 l = dedupSeen s2 l := by
  induction l generalizing s1 s2 with
  | nil => rfl
  | cons a t ih =>
    by_cases ha : a ∈ s1
    · rw [dedupSeen, dedupSeen, if_pos ha, if_pos ((h a).mp ha)]
      exact ih s1 s2 h
    · rw [dedupSeen, dedupSeen, if_neg ha, if_neg (fun hc => ha ((h a).mpr hc))]
      refine congrArg _ (ih _ _ ?_)
      intro y
      simp [List.mem_cons, h y]

theorem foldl_bump_keys {α : Type} [DecidableEq α] (l : List α) (acc : List (α × Nat)) :
    (l.foldl bump acc).map Prod.fst =
      acc.map Prod.fst ++ dedupSeen (acc.map Prod.fst) l := by
  induction l generalizing acc with
  | nil => simp [dedupSeen]
  | cons x xs ih =>
    show (xs.foldl bump (bump acc x)).map Prod.fst = _
    rw [ih, bump_map_fst]
    by_cases hx : x ∈ acc.map Prod.fst
    · rw [if_pos hx, dedupSeen, if_pos hx]
    · rw [if_neg hx, dedupSeen, if_neg hx]
      rw [List.append_assoc, List.singleton_append]
      refine congrArg _ (congrArg _ ?_)
      refine dedupSeen_congr _ _ _ ?_
      intro y
      simp [List.mem_append, List.mem_cons, or_comm]

theorem dedupSeen_eq_dedupFirst {α : Type} [DecidableEq α] (seen l : List α) :
    dedupSeen seen l = dedupFirst (l.filter (fun x => x ∉ seen)) := by
  induction l generalizing seen with
  | nil => simp [dedupSeen, dedupFirst]
  | cons a t ih =>
    by_cases ha : a ∈ seen
    · rw [dedupSeen, if_pos ha]
      have hf : (a :: t).filter (fun x => x ∉ seen) = t.filter (fun x => x ∉ seen) := by
        simp [ha]
      rw [hf]
      exact ih seen
    · rw [dedupSeen, if_neg ha]
      have hf : (a :: t).filter (fun x => x ∉ seen) = a :: t.filter (fun x => x ∉ seen) := by
        simp [ha]
      rw [hf, dedupFirst, ih (a :: seen)]
      refine congrArg _ (congrArg _ ?_)
      rw [List.filter_filter]
      apply List.filter_congr
      intro x _
      by_cases h1 : x ∈ seen <;> by_cases h2 : x = a <;> simp [h1, h2]

theorem tally_keys {α : Type} [DecidableEq α] (l : List α) :
    (tally l).map Prod.fst = dedupFirst l := by
  show (l.foldl bump []).map Prod.fst = _
  rw [foldl_bump_keys, dedupSeen_eq_dedupFirst]
  simp

theorem tally_count_lookup {α : Type} [DecidableEq α] (l : List α) (t : α) :
    (lookupA t (tally l)).getD 0 = l.count t := by
  show (lookupA t (l.foldl bump [])).getD 0 = _
  rw [cnt_foldl_bump]
  simp [lookupA]

theorem lookupA_of_mem_nodupKeys {α β : Type} [DecidableEq α] (acc : List (α × β))
    (hnd : (acc.map Prod.fst).Nodup) (p : α × β) (hp : p ∈ acc) :
    lookupA p.1 acc = some p.2 := by
  induction acc with
  | nil => cases hp
  | cons q t ih =>
    rcases List.mem_cons.mp hp with h | h
    · subst h
      simp [lookupA]
    · have hq : q.1 ≠ p.1 := by
        intro hc
        have h1 : q.1 ∈ t.map Prod.fst := hc ▸ List.mem_map.mpr ⟨p, h, rfl⟩
        exact (List.nodup_cons.mp hnd).1 h1
      simp only [lookupA, if_neg hq]
      exact ih (List.nodup_cons.mp hnd).2 h

theorem tally_mem_count {α : Type} [DecidableEq α] (l : List α) (p : α × Nat)
    (hp : p ∈ tally l) : p.2 = l.count p.1 := by
  have hnd : ((tally l).map Prod.fst).Nodup := by
    rw [tally_keys]
    exact dedupFirst_nodup l
  have h1 := lookupA_of_mem_nodupKeys (tally l) hnd p hp
  have h2 := tally_count_lookup l p.1
  rw [h1] at h2
  simpa using h2

theorem tally_mem_of_mem {α : Type} [DecidableEq α] (l : List α) (s : α) (hs : s ∈ l) :
    (s, l.count s) ∈ tally l := by
  have hk : s ∈ (tally l).map Prod.fst := by
    rw [tally_keys]
    exact (mem_dedupFirst s l).mpr hs
  obtain ⟨p, hp, hps⟩ := List.mem_map.mp hk
  have := tally_mem_count l p hp
  have hpe : p = (s, l.count s) := by
    cases p
    simp only at hps this
    subst hps
    rw [this]
  exact hpe ▸ hp

/-- Unfolds `findCommonGaps` without the redundant empty-input guard (the guard's
branch coincides with the general formula on `[]`). -/
theorem findCommonGaps_eq (results : List MatchResult) :
    findCommonGaps results =
      ((pySortDesc (fun p : String × Nat => p.2)
        (tally (results.flatMap (fun r => r.gap_analysis.missing_skills)))).take 5).map
          Prod.fst := by
  by_cases h : results = []
  · subst h
    rfl
  · simp [findCommonGaps, h]



theorem buildRanking_gaps (P : MatcherParams) (c : List String) (cv : ExtractedCV)
    (jobs : List JobPosting) (top_n : Option Int) :
    (buildRanking P c cv jobs top_n).common_skill_gaps =
      findCommonGaps (((buildRanking P c cv jobs top_n).rankings.filter
        (fun r => (50 : Rat) ≤ r.score.overall_score)).take 5) :=
  rfl

/-- The behaviour of `_find_common_gaps` on any result list: at most five
skills are returned, each is one of the pooled missing skills, they are
listed by non-increasing pool frequency, equal-frequency skills keep their
first-seen order, and no returned skill is less frequent than an omitted
one. -/
theorem findCommonGaps_spec (results : List MatchResult) :
    (findCommonGaps results).length ≤ 5 ∧
    (findCommonGaps results).length =
      min 5 (dedupFirst (results.flatMap (fun r => r.gap_analysis.missing_skills))).length ∧
    (∀ g ∈ findCommonGaps results,
      g ∈ results.flatMap (fun r => r.gap_analysis.missing_skills)) ∧
    (findCommonGaps results).Pairwise (fun a b =>
      (results.flatMap (fun r => r.gap_analysis.missing_skills)).count b ≤
        (results.flatMap (fun r => r.gap_analysis.missing_skills)).count a) ∧
    (∀ v : Nat,
      (findCommonGaps results).filter
          (fun s => (results.flatMap (fun r => r.gap_analysis.missing_skills)).count s = v) <+:
        (dedupFirst (results.flatMap (fun r => r.gap_analysis.missing_skills))).filter
          (fun s => (results.flatMap (fun r => r.gap_analysis.missing_skills)).count s = v)) ∧
    (∀ s ∈ results.flatMap (fun r => r.gap_analysis.missing_skills),
      s ∉ findCommonGaps results →
      ∀ g ∈ findCommonGaps results,
        (results.flatMap (fun r => r.gap_analysis.missing_skills)).count s ≤
          (results.flatMap (fun r => r.gap_analysis.missing_skills)).count g) := by
  set pool := results.flatMap (fun r => r.gap_analysis.missing_skills) with hpool
  set T := tally pool with hT
  set S := pySortDesc (fun p : String × Nat => p.2) T with hS
  have hG : findCommonGaps results = (S.take 5).map Prod.fst := findCommonGaps_eq results
  have hSperm : List.Perm S T := pySortDesc_perm _ T
  have hcount : ∀ q ∈ S, q.2 = pool.count q.1 := fun q hq =>
    tally_mem_count pool q (hSperm.mem_iff.mp hq)
  have htakeS : ∀ q ∈ S.take 5, q ∈ S := fun q hq => (List.take_sublist 5 S).mem hq
  refine ⟨?_, ?_, ?_, ?_, ?_, ?_⟩
  · rw [hG, List.length_map, List.length_take]
    exact Nat.min_le_left 5 _
  · rw [hG, List.length_map, List.length_take]
    congr 1
    rw [hSperm.length_eq, ← tally_keys pool, List.length_map]
  · intro g hg
    rw [hG] at hg
    obtain ⟨q, hq, rfl⟩ := List.mem_map.mp hg
    have hqT : q ∈ T := hSperm.mem_iff.mp (htakeS q hq)
    have : q.1 ∈ T.map Prod.fst := List.mem_map.mpr ⟨q, hqT, rfl⟩
    rw [tally_keys] at this
    exact (mem_dedupFirst q.1 pool).mp this
  · rw [hG]
    rw [List.pairwise_map]
    have h1 : S.Pairwise (descRel (fun p : String × Nat => p.2)) := pySortDesc_sorted _ T
    have h2 : (S.take 5).Pairwise (descRel (fun p : String × Nat => p.2)) :=
      h1.sublist (List.take_sublist 5 S)
    refine List.Pairwise.imp_of_mem ?_ h2
    intro a b ha hb hr
    rw [← hcount a (htakeS a ha), ← hcount b (htakeS b hb)]
    exact hr
  · intro v
    rw [hG]
    have e0 : ((S.take 5).map Prod.fst).filter (fun s => pool.count s = v) =
        ((S.take 5).filter (fun q => pool.count q.1 = v)).map Prod.fst :=
      List.filter_map Prod.fst (S.take 5)
    have e1 : ((S.take 5).filter (fun q => pool.count q.1 = v)).map Prod.fst <+:
        (S.filter (fun q => pool.count q.1 = v)).map Prod.fst :=
      ((List.take_prefix 5 S).filter _).map _
    have e2 : S.filter (fun q => pool.count q.1 = v) = S.filter (fun q => q.2 = v) := by
      apply List.filter_congr
      intro q hq
      rw [hcount q hq]
    have e3 : S.filter (fun q : String × Nat => q.2 = v) =
        T.filter (fun q : String × Nat => q.2 = v) :=
      filter_key_pySortDesc (fun p : String × Nat => p.2) v T
    have e4 : T.filter (fun q : String × Nat => q.2 = v) =
        T.filter (fun q => pool.count q.1 = v) := by
      apply List.filter_congr
      intro q hq
      rw [tally_mem_count pool q hq]
    have e5 : (T.map Prod.fst).filter (fun s => pool.count s = v) =
        (T.filter (fun q => pool.count q.1 = v)).map Prod.fst :=
      List.filter_map Prod.fst T
    rw [e0]
    rw [e2, e3, e4, ← e5, tally_keys] at e1
    exact e1
  · intro s hs hsg g hg
    have hsT : (s, pool.count s) ∈ T := tally_mem_of_mem pool s hs
    have hsS : (s, pool.count s) ∈ S := hSperm.mem_iff.mpr hsT
    have hsplit : S.take 5 ++ S.drop 5 = S := List.take_append_drop 5 S
    have hnotTake : (s, pool.count s) ∉ S.take 5 := by
      intro hc
      apply hsg
      rw [hG]
      exact List.mem_map.mpr ⟨(s, pool.count s), hc, rfl⟩
    have hsDrop : (s, pool.count s) ∈ S.drop 5 := by
      have := hsS
      rw [← hsplit] at this
      rcases List.mem_append.mp this with h | h
      · exact absurd h hnotTake
      · exact h
    rw [hG] at hg
    obtain ⟨q, hqTake, rfl⟩ := List.mem_map.mp hg
    have h1 : S.Pairwise (descRel (fun p : String × Nat => p.2)) := pySortDesc_sorted _ T
    have h2 : (S.take 5 ++ S.drop 5).Pairwise (descRel (fun p : String × Nat => p.2)) := by
      rw [hsplit]
      exact h1
    have hcross := (List.pairwise_append.mp h2).2.2 q hqTake (s, pool.count s) hsDrop
    have : pool.count s ≤ q.2 := hcross
    rw [hcount q (htakeS q hqTake)] at this
    exact this



/-- C7: `common_skill_gaps` is computed from the (possibly truncated) results
with `overall_score ≥ 50`, taking at most the top five of those and pooling
their missing skills; it returns exactly `min 5 (number of distinct pooled
skills)` skill names — the five most frequent, or all of them when fewer than
five are missing — each drawn from that pool, in non-increasing pool
frequency, with equal-frequency names in first-seen order, and no returned
name is rarer than an omitted one; it is empty when no result reaches a
score of 50. -/
theorem claim_C7 (P : MatcherParams) (st : Option (List String)) (cv : ExtractedCV)
    (jobs : List JobPosting) (top_n : Option Int) :
    ((∀ r ∈ (rankingOf (matchCvToJobs P st cv jobs top_n)).rankings,
        r.score.overall_score < 50) →
      (rankingOf (matchCvToJobs P st cv jobs top_n)).common_skill_gaps = []) ∧
    (rankingOf (matchCvToJobs P st cv jobs top_n)).common_skill_gaps.length ≤ 5 ∧
    (rankingOf (matchCvToJobs P st cv jobs top_n)).common_skill_gaps.length =
      min 5 (dedupFirst (topGapPool (rankingOf (matchCvToJobs P st cv jobs top_n)))).length ∧
    (∀ g ∈ (rankingOf (matchCvToJobs P st cv jobs top_n)).common_skill_gaps,
      g ∈ topGapPool (rankingOf (matchCvToJobs P st cv jobs top_n))) ∧
    ((rankingOf (matchCvToJobs P st cv jobs top_n)).common_skill_gaps).Pairwise
      (fun a b =>
        (topGapPool (rankingOf (matchCvToJobs P st cv jobs top_n))).count b ≤
          (topGapPool (rankingOf (matchCvToJobs P st cv jobs top_n))).count a) ∧
    (∀ v : Nat,
      ((rankingOf (matchCvToJobs P st cv jobs top_n)).common_skill_gaps).filter
          (fun s => (topGapPool (rankingOf (matchCvToJobs P st cv jobs top_n))).count s = v) <+:
        (dedupFirst (topGapPool (rankingOf (matchCvToJobs P st cv jobs top_n)))).filter
          (fun s => (topGapPool (rankingOf (matchCvToJobs P st cv jobs top_n))).count s = v)) ∧
    (∀ s ∈ topGapPool (rankingOf (matchCvToJobs P st cv jobs top_n)),
      s ∉ (rankingOf (matchCvToJobs P st cv jobs top_n)).common_skill_gaps →
      ∀ g ∈ (rankingOf (matchCvToJobs P st cv jobs top_n)).common_skill_gaps,
        (topGapPool (rankingOf (matchCvToJobs P st cv jobs top_n))).count s ≤
          (topGapPool (rankingOf (matchCvToJobs P st cv jobs top_n))).count g) := by
  have hgaps : (rankingOf (matchCvToJobs P st cv jobs top_n)).common_skill_gaps =
      findCommonGaps (((rankingOf (matchCvToJobs P st cv jobs top_n)).rankings.filter
        (fun r => (50 : Rat) ≤ r.score.overall_score)).take 5) := by
    rw [rankingOf_eq]
    exact buildRanking_gaps P (usedCorpus st cv jobs) cv jobs top_n
  have hpool : topGapPool (rankingOf (matchCvToJobs P st cv jobs top_n)) =
      (((rankingOf (matchCvToJobs P st cv jobs top_n)).rankings.filter
        (fun r => (50 : Rat) ≤ r.score.overall_score)).take 5).flatMap
          (fun r => r.gap_analysis.missing_skills) := rfl
  have hspec := findCommonGaps_spec
    (((rankingOf (matchCvToJobs P st cv jobs top_n)).rankings.filter
      (fun r => (50 : Rat) ≤ r.score.overall_score)).take 5)
  refine ⟨?_, ?_, ?_, ?_, ?_, ?_, ?_⟩
  · intro h
    rw [hgaps]
    have hnil : (rankingOf (matchCvToJobs P st cv jobs top_n)).rankings.filter
        (fun r => (50 : Rat) ≤ r.score.overall_score) = [] := by
      rw [List.filter_eq_nil_iff]
      intro r hr
      simpa using not_le.mpr (h r hr)
    rw [hnil]
    rfl
  · rw [hgaps]
    exact hspec.1
  · rw [hgaps, hpool]
    exact hspec.2.1
  · rw [hgaps, hpool]
    exact hspec.2.2.1
  · rw [hgaps, hpool]
    exact hspec.2.2.2.1
  · rw [hgaps, hpool]
    exact hspec.2.2.2.2.1
  · rw [hgaps, hpool]
    exact hspec.2.2.2.2.2

theorem claim_C7_witness :
    (rankingOf (matchCvToJobs fixP none fixCvNone [fixJobHard] none)).common_skill_gaps = [] := by
  apply (claim_C7 fixP none fixCvNone [fixJobHard] none).1
  have hscore : (matchOne fixP (some (batchCorpus fixCvNone [fixJobHard]))
      fixCvNone fixJobHard).score.overall_score = 3 := by
    norm_num [matchOne, calculateSkillMatch, calculateTextSimilarity, calculateExperienceMatch,
      classifyScore, getAllSkills, getSearchableText, getFullText, dedupFirst, lowerStr, extract,
      normalizeSkill, round2, roundHalfEven, optPart, resolvedJdSkills, resolvedCvSkills, fixP,
      fixCvNone, fixJobHard, fixFindMatches, fixSimFn, batchCorpus, generateRecommendations]
  intro r hr
  have hrk : (rankingOf (matchCvToJobs fixP none fixCvNone [fixJobHard] none)).rankings =
      [{ matchOne fixP (some (batchCorpus fixCvNone [fixJobHard])) fixCvNone fixJobHard with
          rank := some 1 }] := rfl
  rw [hrk, List.mem_singleton] at hr
  subst hr
  show (matchOne fixP (some (batchCorpus fixCvNone [fixJobHard]))
      fixCvNone fixJobHard).score.overall_score < 50
  rw [hscore]
  norm_num

/-! ## Lemmas about the skill normalizer -/

theorem lookupA_eq_some_mem {α β : Type} [DecidableEq α] (k : α) (l : List (α × β)) (v : β)
    (h : lookupA k l = some v) : (k, v) ∈ l := by
  induction l with
  | nil => cases h
  | cons p t ih =>
    by_cases hp : p.1 = k
    · simp only [lookupA, if_pos hp] at h
      have : (k, v) = p := by
        cases p
        simp only at hp
        cases h
        simp [hp]
      exact this ▸ List.mem_cons_self _ _
    · simp only [lookupA, if_neg hp] at h
      exact List.mem_cons_of_mem p (ih h)

/-- Every canonical value of the synonym table is a fixed point of
`normalize` (checked over the whole table). -/
theorem synValue_fixed : ∀ p ∈ synPairs, normalizeChars p.2 = p.2 := by decide

theorem lowerPairs_value_not_key : ∀ p ∈ lowerPairs, lookupA p.2 lowerPairs = none := by decide

theorem toLowerChar_idem (c : Char) : toLowerChar (toLowerChar c) = toLowerChar c := by
  unfold toLowerChar
  cases h : lookupA c lowerPairs with
  | none => rw [h]
  | some v =>
    have hv := lowerPairs_value_not_key (c, v) (lookupA_eq_some_mem c lowerPairs v h)
    simp only at hv
    rw [hv]

theorem filter_self_idem {α : Type} (p : α → Bool) (l : List α) :
    (l.filter p).filter p = l.filter p := by
  rw [List.filter_filter]
  apply List.filter_congr
  intro a _
  rw [Bool.and_self]

theorem map_toLower_filter_fixed (p : Char → Bool) (m : List Char) :
    ((m.map toLowerChar).filter p).map toLowerChar = (m.map toLowerChar).filter p := by
  rw [List.filter_map, List.map_map]
  apply List.map_congr_left
  intro c _
  exact toLowerChar_idem c

/-- Cleaning is idempotent on any input whose cleaned form carries no leading
or trailing whitespace. -/
theorem cleanChars_of_clean (l : List Char) (h : trimChars (cleanChars l) = cleanChars l) :
    cleanChars (cleanChars l) = cleanChars l := by
  show ((trimChars (cleanChars l)).map toLowerChar).filter allowedChar = cleanChars l
  rw [h]
  show (((((trimChars l).map toLowerChar).filter allowedChar)).map toLowerChar).filter
      allowedChar = cleanChars l
  rw [map_toLower_filter_fixed, filter_self_idem]
  rfl

/-- C8 as written is false on the code: stripping a disallowed character can
expose trailing whitespace that only a second `normalize` removes, and the
re-trimmed string can then hit the synonym table.  Concretely
`normalize("js !") = "js "` (trailing space kept) while
`normalize(normalize("js !")) = normalize("js ") = "javascript"`. -/
theorem claim_C8_counterexample :
    normalizeSkill ("js !") = "js " ∧
    normalizeSkill (normalizeSkill ("js !")) = "javascript" ∧
    normalizeSkill (normalizeSkill ("js !")) ≠ normalizeSkill ("js !") := by
  refine ⟨by decide, by decide, by decide⟩

/-- C8, amended: `normalize` is idempotent on every skill string whose
cleaned form carries no leading or trailing whitespace (all realistic skill
tokens); idempotence can fail only when stripping a disallowed character
exposes boundary whitespace, as in the counterexample. -/
theorem claim_C8_amended (s : String)
    (h : trimChars (cleanChars s.data) = cleanChars s.data) :
    normalizeSkill (normalizeSkill s) = normalizeSkill s := by
  have main : normalizeChars (normalizeChars s.data) = normalizeChars s.data := by
    cases h1 : lookupA (cleanChars s.data) synPairs with
    | some v =>
      have hn : normalizeChars s.data = v := by
        simp only [normalizeChars]
        rw [h1]
      rw [hn]
      exact synValue_fixed (cleanChars s.data, v) (lookupA_eq_some_mem _ _ _ h1)
    | none =>
      cases h2 : lookupA (stripDots (cleanChars s.data)) synPairs with
      | some v =>
        have hn : normalizeChars s.data = v := by
          simp only [normalizeChars]
          rw [h1, h2]
        rw [hn]
        exact synValue_fixed (stripDots (cleanChars s.data), v) (lookupA_eq_some_mem _ _ _ h2)
      | none =>
        have hn : normalizeChars s.data = cleanChars s.data := by
          simp only [normalizeChars]
          rw [h1, h2]
        rw [hn]
        simp only [normalizeChars]
        rw [cleanChars_of_clean s.data h, h1, h2]
  show String.mk (normalizeChars (String.mk (normalizeChars s.data)).data) =
    String.mk (normalizeChars s.data)
  exact congrArg String.mk main

theorem claim_C8_amended_witness :
    trimChars (cleanChars ("node.js").data) = cleanChars ("node.js").data ∧
    normalizeSkill (normalizeSkill ("node.js")) = normalizeSkill ("node.js") :=
  ⟨by decide, claim_C8_amended ("node.js") (by decide)⟩



/-- C9 as written is false on the code: the regex keeps `\w`, which includes
the underscore, so the cleaned form of `"snake_case"` contains `'_'`, a
character outside the claimed class `[a-z0-9\s\-.\#+]`. -/
theorem claim_C9_counterexample :
    '_' ∈ cleanChars ("snake_case").data ∧
    specC9AllowedChar ('_') = false ∧
    ((cleanChars ("snake_case").data).all specC9AllowedChar) = false := by
  refine ⟨by decide, by decide, by decide⟩

/-- C9, amended: `normalize` first trims and lowercases its input and strips
every character outside `[\w\s\-.\#+]` — word characters, including the
underscore, whitespace, and `- . # +` — so the cleaned string (returned
unchanged for skills absent from the synonym table, dots stripped or not)
contains only characters of that class. -/
theorem claim_C9_amended (s : List Char) :
    ((cleanChars s).all allowedChar = true) ∧
    (lookupA (cleanChars s) synPairs = none →
      lookupA (stripDots (cleanChars s)) synPairs = none →
      normalizeChars s = cleanChars s) := by
  constructor
  · rw [List.all_eq_true]
    intro c hc
    exact List.of_mem_filter hc
  · intro h1 h2
    simp only [normalizeChars]
    rw [h1, h2]

theorem claim_C9_amended_witness :
    ((cleanChars ("spark streaming").data).all allowedChar = true) ∧
    normalizeChars ("spark streaming").data = cleanChars ("spark streaming").data :=
  ⟨(claim_C9_amended ("spark streaming").data).1,
   (claim_C9_amended ("spark streaming").data).2 (by decide) (by decide)⟩

end ResumeScreener
